import Mathlib

/-!
Verification of the nearest-building computation of `src/main.py`
(the "NearestBuildingFinder" core of the spec).

The relevant source lines are 102-115:

* line 102: `cristo_redentor_coords = {'latitude': -22.950996196, 'longitude': -43.206499174}`
* line 106: `buildings = gpd.GeoDataFrame(buildings, geometry=gpd.points_from_xy(buildings.longitude, buildings.latitude))`
  -- the geometry column is replaced by points built from the longitude and
  latitude columns; the CSV polygon strings are discarded before any distance
  is computed.
* line 109: `buildings['distance_to_cristo'] = buildings['geometry'].distance(cristo_redentor_coords_point)`
  -- shapely point-to-point `.distance` is the planar Euclidean distance
  `sqrt((dx)^2 + (dy)^2)` over (longitude, latitude); a row with a missing
  (NaN) coordinate yields a NaN distance.
* line 111: `buildings = buildings.sort_values(by='distance_to_cristo')`
  -- pandas `sort_values` with the default `kind='quicksort'`: the rows are
  permuted so that the distance column is ascending with NaN placed last;
  the relative order of exactly tied values is NOT specified by pandas
  (the default quicksort is not a stable sort).
* line 115: `closest_building = buildings.loc[buildings['distance_to_cristo'].idxmin()]`
  -- `Series.idxmin` (default `skipna=True`) returns the index label of the
  first occurrence of the minimum among the non-NaN values, and raises
  `ValueError` when there is no non-NaN value (in particular on an empty
  frame); `.loc` then retrieves the row with that label.  The index labels
  are the original `RangeIndex` positions 0,1,2,... from `read_csv`, which
  `sort_values` carries along unchanged.

Modelling choices:

* Numbers are embedded as rationals (idealised exact arithmetic in place of
  IEEE doubles); a missing / non-finite coordinate is `Option.none`, and any
  arithmetic touching it produces `none`, mirroring NaN propagation.
* The square root is strictly monotone on nonnegative numbers, so the
  pipeline is embedded with the squared distance as the comparison key; the
  actual shapely distance of a row is `Real.sqrt` of that key, and the
  theorems about the reported distances are stated through `Real.sqrt`.
* The sort of line 111 is embedded as a parameter `f` mapping the distance
  column to a permutation of the row positions, constrained by `IsArgsort`
  to produce exactly what pandas guarantees: a permutation of the positions
  along which the distances are ascending with NaN last.  The unspecified
  tie order of the default quicksort is thereby left abstract.  A concrete
  executable instance `insArgsort` (insertion sort) is provided for running
  the pipeline on concrete inputs.
-/

/-- One row of the buildings table, with the columns selected at line 72 of
`src/main.py` (`usecols=['latitude', 'longitude', 'area_in_meters',
'confidence', 'geometry', 'full_plus_code']`).  A missing or non-finite
latitude/longitude is `none` (pandas NaN). -/
structure BuildingRecord where
  latitude : Option ℚ
  longitude : Option ℚ
  area_in_meters : ℚ
  confidence : ℚ
  geometry : String
  full_plus_code : String
deriving DecidableEq, Repr, Inhabited

/-- The fixed reference coordinate (line 102 of `src/main.py`). -/
structure RefPoint where
  latitude : ℚ
  longitude : ℚ
deriving DecidableEq, Repr

/-- Line 102 of `src/main.py`: the Cristo Redentor coordinates. -/
def cristoRedentorCoords : RefPoint :=
  { latitude := -22.950996196, longitude := -43.206499174 }

/-- Lines 103-109 of `src/main.py`, squared: the point of a row is built from
its (longitude, latitude) (line 106) and shapely `.distance` to the reference
point is `sqrt((lon - ref.lon)^2 + (lat - ref.lat)^2)`.  `dist2` is the value
under the square root; a row with a missing coordinate has a NaN distance,
embedded as `none`. -/
def dist2 (p : RefPoint) (r : BuildingRecord) : Option ℚ :=
  match r.longitude, r.latitude with
  | some lo, some la => some ((lo - p.longitude) ^ 2 + (la - p.latitude) ^ 2)
  | _, _ => none

/-- Line 109 of `src/main.py`: the `distance_to_cristo` column (squared), one
entry per row in the original row order. -/
def distCol (p : RefPoint) (rs : List BuildingRecord) : List (Option ℚ) :=
  rs.map (dist2 p)

/-- The ascending-with-NaN-last comparison used by `sort_values` on the
distance column: `none` (NaN) sorts after every number
(`na_position='last'`, the pandas default). -/
def dleB : Option ℚ → Option ℚ → Bool
  | some a, some b => a ≤ b
  | some _, none => true
  | none, some _ => false
  | none, none => true

/-- Positions `i, j` of the distance column `ds` in sorted order. -/
def argsortRel (ds : List (Option ℚ)) (i j : ℕ) : Prop :=
  dleB (ds.getD i none) (ds.getD j none) = true

instance (ds : List (Option ℚ)) : DecidableRel (argsortRel ds) :=
  fun i j => decEq (dleB (ds.getD i none) (ds.getD j none)) true

/-- What pandas guarantees about `sort_values(by='distance_to_cristo')` with
the default `kind='quicksort'`: applied to a distance column, the sort
function yields a permutation of the row positions along which the distances
are ascending with NaN last.  Nothing is guaranteed about the relative order
of exactly tied values (the default quicksort is not stable), so any function
satisfying this predicate is an admissible embedding of line 111. -/
def IsArgsort (f : List (Option ℚ) → List ℕ) : Prop :=
  ∀ ds : List (Option ℚ),
    (f ds).Perm (List.range ds.length) ∧ (f ds).Pairwise (argsortRel ds)

/-- A concrete executable sort satisfying `IsArgsort`, used to run the
pipeline on concrete inputs. -/
def insArgsort (ds : List (Option ℚ)) : List ℕ :=
  List.insertionSort (argsortRel ds) (List.range ds.length)

/-- The failures the pipeline of lines 109-115 can raise.  `emptyDataset` is
the `ValueError` of `Series.idxmin` when the series has no non-NaN value (in
particular on an empty frame) — the error the spec names
`EmptyDatasetError`.  `badLabel` is the `KeyError` of `.loc` on a label
absent from the frame (never actually reached). -/
inductive FindError where
  | emptyDataset : FindError
  | badLabel : FindError
deriving DecidableEq, Repr

/-- Pandas `Series.idxmin` with the default `skipna=True`, on a series given as
(label, value) pairs: the label paired with the minimum value over the
non-NaN entries, the first such label when several entries attain it;
`none` when the series has no non-NaN entry. -/
def idxminAux : List (ℕ × Option ℚ) → Option (ℕ × ℚ)
  | [] => none
  | (_, none) :: rest => idxminAux rest
  | (i, some v) :: rest =>
    match idxminAux rest with
    | none => some (i, v)
    | some (j, w) => if w < v then some (j, w) else some (i, v)

/-- The `distance_to_cristo` series of the frame after line 111: the sorted
row positions each paired with their (squared) distance; `sort_values` keeps
the original labels with the rows. -/
def sortedSeries (f : List (Option ℚ) → List ℕ) (p : RefPoint)
    (rs : List BuildingRecord) : List (ℕ × Option ℚ) :=
  (f (distCol p rs)).map (fun i => (i, (distCol p rs).getD i none))

/-- The label computed at line 115, `buildings['distance_to_cristo'].idxmin()`:
the original position of the returned row. -/
def findNearestIdx (f : List (Option ℚ) → List ℕ) (p : RefPoint)
    (rs : List BuildingRecord) : Except FindError ℕ :=
  match idxminAux (sortedSeries f p rs) with
  | none => Except.error FindError.emptyDataset
  | some (i, _) => Except.ok i

/-- Line 115 of `src/main.py` in full, the spec's
`find_nearest(records, reference)`: `buildings.loc[...idxmin()]` — look the
winning label up in the frame (labels are the original positions). -/
def findNearest (f : List (Option ℚ) → List ℕ) (p : RefPoint)
    (rs : List BuildingRecord) : Except FindError BuildingRecord :=
  match findNearestIdx f p rs with
  | Except.error e => Except.error e
  | Except.ok i =>
    match rs[i]? with
    | some r => Except.ok r
    | none => Except.error FindError.badLabel

/-- The five data columns of a record as loaded from the CSV — everything
except the geometry column, which line 106 of `src/main.py` overwrites
before the nearest-building computation runs. -/
structure RecordData where
  latitude : Option ℚ
  longitude : Option ℚ
  area_in_meters : ℚ
  confidence : ℚ
  full_plus_code : String
deriving DecidableEq, Repr

/-- The data-column projection of an input record. -/
def BuildingRecord.data (r : BuildingRecord) : RecordData :=
  { latitude := r.latitude, longitude := r.longitude
    area_in_meters := r.area_in_meters, confidence := r.confidence
    full_plus_code := r.full_plus_code }

/-- One row of the frame bound to `buildings` after lines 106 and 109 of
`src/main.py`: the geometry column has been replaced by the point
`(longitude, latitude)` (line 106, `points_from_xy` takes x from longitude
and y from latitude), and the squared `distance_to_cristo` column has been
appended (line 109). -/
structure FrameRow where
  latitude : Option ℚ
  longitude : Option ℚ
  area_in_meters : ℚ
  confidence : ℚ
  geometry_x : Option ℚ
  geometry_y : Option ℚ
  full_plus_code : String
  distance_to_cristo : Option ℚ
deriving DecidableEq, Repr

/-- The data-column projection of a frame row. -/
def FrameRow.data (row : FrameRow) : RecordData :=
  { latitude := row.latitude, longitude := row.longitude
    area_in_meters := row.area_in_meters, confidence := row.confidence
    full_plus_code := row.full_plus_code }

/-- Lines 106 and 109 of `src/main.py` applied to one row: the geometry
column becomes the point `(longitude, latitude)` and the (squared) distance
column is appended; the five data columns are carried over unchanged. -/
def toFrameRow (p : RefPoint) (r : BuildingRecord) : FrameRow :=
  { latitude := r.latitude, longitude := r.longitude
    area_in_meters := r.area_in_meters, confidence := r.confidence
    geometry_x := r.longitude, geometry_y := r.latitude
    full_plus_code := r.full_plus_code
    distance_to_cristo := dist2 p r }

/-- The frame bound to `buildings` after line 111 of `src/main.py`: the
rows produced by lines 106 and 109 (point geometry, appended distance
column), reordered by the sort. -/
def recordsAfter (f : List (Option ℚ) → List ℕ) (p : RefPoint)
    (rs : List BuildingRecord) : List FrameRow :=
  (f (distCol p rs)).map (fun i => toFrameRow p (rs.getD i default))

/-- Record "A" of the spec's concrete scenario (section 8):
`{lat:-22.95, lon:-43.20, code:"A"}`. -/
def recA : BuildingRecord :=
  { latitude := some (-22.95), longitude := some (-43.20)
    area_in_meters := 0, confidence := 0.65
    geometry := "", full_plus_code := "A" }

/-- Record "B" of the spec's concrete scenario (section 8):
`{lat:-23.00, lon:-43.25, code:"B"}`. -/
def recB : BuildingRecord :=
  { latitude := some (-23.00), longitude := some (-43.25)
    area_in_meters := 0, confidence := 0.65
    geometry := "", full_plus_code := "B" }

/-- A record with a missing (NaN) latitude, for the non-finite-coordinate
scenarios. -/
def recN : BuildingRecord :=
  { latitude := none, longitude := some (-43.20)
    area_in_meters := 0, confidence := 0.65
    geometry := "", full_plus_code := "N" }

/-- Record "A" with a different geometry column (and nothing else changed),
for the geometry-irrelevance scenario. -/
def recAgeo : BuildingRecord :=
  { latitude := some (-22.95), longitude := some (-43.20)
    area_in_meters := 0, confidence := 0.65
    geometry := "POLYGON ((0 0, 1 0, 1 1, 0 0))", full_plus_code := "A" }

lemma dleB_total (x y : Option ℚ) : dleB x y = true ∨ dleB y x = true := by
  cases x <;> cases y <;> simp [dleB, le_total]

lemma dleB_trans {x y z : Option ℚ} (h1 : dleB x y = true) (h2 : dleB y z = true) :
    dleB x z = true := by
  cases x <;> cases y <;> cases z <;> simp_all [dleB]
  exact le_trans h1 h2

instance (ds : List (Option ℚ)) : IsTotal ℕ (argsortRel ds) :=
  ⟨fun i j => dleB_total (ds.getD i none) (ds.getD j none)⟩

instance (ds : List (Option ℚ)) : IsTrans ℕ (argsortRel ds) :=
  ⟨fun _ _ _ h1 h2 => dleB_trans h1 h2⟩

/-- The concrete insertion sort is an admissible embedding of line 111. -/
lemma insArgsort_isArgsort : IsArgsort insArgsort := by
  intro ds
  refine ⟨List.perm_insertionSort (argsortRel ds) (List.range ds.length), ?_⟩
  exact List.sorted_insertionSort (argsortRel ds) (List.range ds.length)

lemma idxminAux_eq_none {l : List (ℕ × Option ℚ)} (h : idxminAux l = none) :
    ∀ j w, (j, some w) ∈ l → False := by
  induction l with
  | nil => simp
  | cons hd tl ih =>
    obtain ⟨j0, x⟩ := hd
    intro j w hmem
    cases x with
    | none =>
      simp only [idxminAux] at h
      rcases List.mem_cons.mp hmem with heq | htl
      · simp at heq
      · exact ih h j w htl
    | some w0 =>
      simp only [idxminAux] at h
      cases hrec : idxminAux tl with
      | none => rw [hrec] at h; simp at h
      | some p =>
        obtain ⟨k, u⟩ := p
        rw [hrec] at h
        by_cases hc : u < w0 <;> simp [hc] at h

lemma idxminAux_mem {l : List (ℕ × Option ℚ)} :
    ∀ {i : ℕ} {v : ℚ}, idxminAux l = some (i, v) → (i, some v) ∈ l := by
  induction l with
  | nil => intro i v h; simp [idxminAux] at h
  | cons hd tl ih =>
    intro i v h
    obtain ⟨j0, x⟩ := hd
    cases x with
    | none =>
      simp only [idxminAux] at h
      exact List.mem_cons_of_mem _ (ih h)
    | some w0 =>
      simp only [idxminAux] at h
      cases hrec : idxminAux tl with
      | none =>
        rw [hrec] at h
        simp only [Option.some.injEq, Prod.mk.injEq] at h
        obtain ⟨h1, h2⟩ := h
        subst h1; subst h2
        exact List.mem_cons_self _ _
      | some p =>
        obtain ⟨k, u⟩ := p
        rw [hrec] at h
        by_cases hc : u < w0
        · simp only [if_pos hc, Option.some.injEq, Prod.mk.injEq] at h
          obtain ⟨h1, h2⟩ := h
          subst h1; subst h2
          exact List.mem_cons_of_mem _ (ih hrec)
        · simp only [if_neg hc, Option.some.injEq, Prod.mk.injEq] at h
          obtain ⟨h1, h2⟩ := h
          subst h1; subst h2
          exact List.mem_cons_self _ _

lemma idxminAux_le {l : List (ℕ × Option ℚ)} :
    ∀ {i : ℕ} {v : ℚ}, idxminAux l = some (i, v) →
      ∀ j w, (j, some w) ∈ l → v ≤ w := by
  induction l with
  | nil => intro i v h; simp [idxminAux] at h
  | cons hd tl ih =>
    intro i v h j w hmem
    obtain ⟨j0, x⟩ := hd
    cases x with
    | none =>
      simp only [idxminAux] at h
      rcases List.mem_cons.mp hmem with heq | htl
      · simp at heq
      · exact ih h j w htl
    | some w0 =>
      simp only [idxminAux] at h
      cases hrec : idxminAux tl with
      | none =>
        rw [hrec] at h
        simp only [Option.some.injEq, Prod.mk.injEq] at h
        obtain ⟨h1, h2⟩ := h
        subst h1; subst h2
        rcases List.mem_cons.mp hmem with heq | htl
        · have hw : w = w0 := by
            simp only [Prod.mk.injEq, Option.some.injEq] at heq
            exact heq.2
          exact le_of_eq hw.symm
        · exact absurd htl (fun hc => idxminAux_eq_none hrec j w hc)
      | some p =>
        obtain ⟨k, u⟩ := p
        rw [hrec] at h
        have hu : ∀ j1 w1, (j1, some w1) ∈ tl → u ≤ w1 := ih hrec
        by_cases hc : u < w0
        · simp only [if_pos hc, Option.some.injEq, Prod.mk.injEq] at h
          obtain ⟨h1, h2⟩ := h
          subst h1; subst h2
          rcases List.mem_cons.mp hmem with heq | htl
          · have hw : w = w0 := by
              simp only [Prod.mk.injEq, Option.some.injEq] at heq
              exact heq.2
            exact (hc.trans_eq hw.symm).le
          · exact hu j w htl
        · simp only [if_neg hc, Option.some.injEq, Prod.mk.injEq] at h
          obtain ⟨h1, h2⟩ := h
          subst h1; subst h2
          have hw0u : w0 ≤ u := le_of_not_lt hc
          rcases List.mem_cons.mp hmem with heq | htl
          · have hw : w = w0 := by
              simp only [Prod.mk.injEq, Option.some.injEq] at heq
              exact heq.2
            exact le_of_eq hw.symm
          · exact le_trans hw0u (hu j w htl)

lemma idxminAux_isSome {l : List (ℕ × Option ℚ)} {j : ℕ} {w : ℚ}
    (h : (j, some w) ∈ l) : ∃ i v, idxminAux l = some (i, v) := by
  cases hrec : idxminAux l with
  | none => exact absurd h (fun hc => idxminAux_eq_none hrec j w hc)
  | some p =>
    obtain ⟨a, b⟩ := p
    exact ⟨a, b, rfl⟩

lemma dist2_isSome {p : RefPoint} {r : BuildingRecord}
    (hla : r.latitude ≠ none) (hlo : r.longitude ≠ none) :
    ∃ d, dist2 p r = some d := by
  cases hla2 : r.latitude with
  | none => exact absurd hla2 hla
  | some la =>
    cases hlo2 : r.longitude with
    | none => exact absurd hlo2 hlo
    | some lo =>
      exact ⟨(lo - p.longitude) ^ 2 + (la - p.latitude) ^ 2,
        by simp [dist2, hla2, hlo2]⟩

lemma dist2_some_finite {p : RefPoint} {r : BuildingRecord} {d : ℚ}
    (h : dist2 p r = some d) : r.latitude ≠ none ∧ r.longitude ≠ none := by
  cases hlo : r.longitude with
  | none => simp [dist2, hlo] at h
  | some lo =>
    cases hla : r.latitude with
    | none => simp [dist2, hlo, hla] at h
    | some la => simp [hla, hlo]

lemma dist2_nonneg {p : RefPoint} {r : BuildingRecord} {d : ℚ}
    (h : dist2 p r = some d) : 0 ≤ d := by
  cases hlo : r.longitude with
  | none => simp [dist2, hlo] at h
  | some lo =>
    cases hla : r.latitude with
    | none => simp [dist2, hlo, hla] at h
    | some la =>
      simp only [dist2, hlo, hla, Option.some.injEq] at h
      subst h
      positivity

lemma length_distCol (p : RefPoint) (rs : List BuildingRecord) :
    (distCol p rs).length = rs.length := by
  simp [distCol]

lemma distCol_getD (p : RefPoint) (rs : List BuildingRecord) {i : ℕ}
    (h : i < rs.length) : (distCol p rs).getD i none = dist2 p rs[i] := by
  simp [distCol, List.getD_eq_getElem?_getD, List.getElem?_eq_getElem h]

/-- Every row position appears in the sorted series, paired with its
(squared) distance. -/
lemma mem_sortedSeries {f : List (Option ℚ) → List ℕ} (hf : IsArgsort f)
    (p : RefPoint) (rs : List BuildingRecord) {j : ℕ} (hj : j < rs.length) :
    (j, dist2 p rs[j]) ∈ sortedSeries f p rs := by
  have hperm := (hf (distCol p rs)).1
  have hjmem : j ∈ f (distCol p rs) := by
    rw [hperm.mem_iff, List.mem_range, length_distCol]
    exact hj
  have hm := List.mem_map_of_mem (fun i => (i, (distCol p rs).getD i none)) hjmem
  simp only [sortedSeries]
  rw [← distCol_getD p rs hj]
  simpa using hm

/-- Conversely, every entry of the sorted series is a row position with its
distance. -/
lemma sortedSeries_mem {f : List (Option ℚ) → List ℕ} (hf : IsArgsort f)
    {p : RefPoint} {rs : List BuildingRecord} {i : ℕ} {x : Option ℚ}
    (h : (i, x) ∈ sortedSeries f p rs) :
    ∃ hi : i < rs.length, x = dist2 p rs[i] := by
  simp only [sortedSeries, List.mem_map] at h
  obtain ⟨a, ha, heq⟩ := h
  simp only [Prod.mk.injEq] at heq
  obtain ⟨rfl, rfl⟩ := heq
  have hperm := (hf (distCol p rs)).1
  have hi : a < rs.length := by
    have := hperm.mem_iff.mp ha
    rw [List.mem_range, length_distCol] at this
    exact this
  exact ⟨hi, distCol_getD p rs hi⟩

/-- The central behaviour of line 115 when the arg-min exists: the returned
row is the one at the winning label, its (squared) distance is the minimum
value, and that value is no larger than any non-NaN distance in the
collection. -/
lemma findNearest_spec {f : List (Option ℚ) → List ℕ} (hf : IsArgsort f)
    {p : RefPoint} {rs : List BuildingRecord} {i : ℕ} {v : ℚ}
    (h : idxminAux (sortedSeries f p rs) = some (i, v)) :
    ∃ hi : i < rs.length,
      findNearest f p rs = Except.ok rs[i] ∧
      dist2 p rs[i] = some v ∧
      ∀ j (hj : j < rs.length) (d : ℚ), dist2 p rs[j] = some d → v ≤ d := by
  have hmem := idxminAux_mem h
  obtain ⟨hi, hx⟩ := sortedSeries_mem hf hmem
  refine ⟨hi, ?_, hx.symm, ?_⟩
  · simp [findNearest, findNearestIdx, h, List.getElem?_eq_getElem hi]
  · intro j hj d hd
    refine idxminAux_le h j d ?_
    have hm := mem_sortedSeries hf p rs hj
    rwa [hd] at hm

/-- C1: for every non-empty collection of records with finite
latitude/longitude and every reference point, the computation of lines
109-115 returns a record that is an element of the input collection, and no
other record in the collection has a strictly smaller distance (the square
root of its squared distance) to the reference point than the returned
record — a full argmin, whichever admissible order the unstable sort of
line 111 produces. -/
theorem findNearest_mem_and_minimal (f : List (Option ℚ) → List ℕ)
    (hf : IsArgsort f) (p : RefPoint) (rs : List BuildingRecord)
    (hne : rs ≠ [])
    (hfin : ∀ r ∈ rs, r.latitude ≠ none ∧ r.longitude ≠ none) :
    ∃ r, findNearest f p rs = Except.ok r ∧ r ∈ rs ∧
      ∀ r' ∈ rs, ∀ d d' : ℚ, dist2 p r = some d → dist2 p r' = some d' →
        Real.sqrt (d : ℝ) ≤ Real.sqrt (d' : ℝ) := by
  have h0 : 0 < rs.length := List.length_pos.mpr hne
  have hfin0 := hfin rs[0] (List.getElem_mem h0)
  obtain ⟨d0, hd0⟩ := dist2_isSome hfin0.1 hfin0.2
  have hmem0 := mem_sortedSeries hf p rs h0
  rw [hd0] at hmem0
  obtain ⟨i, v, hidx⟩ := idxminAux_isSome hmem0
  obtain ⟨hi, hok, hdi, hmin⟩ := findNearest_spec hf hidx
  refine ⟨rs[i], hok, List.getElem_mem hi, ?_⟩
  intro r' hr' d d' hd hd'
  have hvd : v = d := Option.some.inj (hdi.symm.trans hd)
  obtain ⟨j, hj, hrj⟩ := List.mem_iff_getElem.mp hr'
  rw [← hrj] at hd'
  have hvd' : v ≤ d' := hmin j hj d' hd'
  exact Real.sqrt_le_sqrt (by exact_mod_cast hvd ▸ hvd')

/-- C2: on the empty collection the computation fails with the
empty-dataset error (the `ValueError` of `idxmin` on an empty series, the
spec's `EmptyDatasetError`), and with no other error. -/
theorem findNearest_empty_dataset (f : List (Option ℚ) → List ℕ)
    (hf : IsArgsort f) (p : RefPoint) :
    findNearest f p [] = Except.error FindError.emptyDataset := by
  have h1 : f (distCol p []) = [] :=
    List.Perm.eq_nil (by simpa [distCol] using (hf (distCol p [])).1)
  simp [findNearest, findNearestIdx, sortedSeries, h1, idxminAux]

/-- C3: for every record with finite coordinates and every reference point,
the distance used for selection (the square root of the stored squared
distance) equals `sqrt((lon - ref.lon)^2 + (lat - ref.lat)^2)`, the planar
Euclidean distance in degree units. -/
theorem dist2_sqrt_euclidean (p : RefPoint) (r : BuildingRecord) (la lo : ℚ)
    (hla : r.latitude = some la) (hlo : r.longitude = some lo) :
    ∃ d : ℚ, dist2 p r = some d ∧ 0 ≤ d ∧
      Real.sqrt (d : ℝ) =
        Real.sqrt (((lo : ℝ) - (p.longitude : ℝ)) ^ 2 +
          ((la : ℝ) - (p.latitude : ℝ)) ^ 2) := by
  refine ⟨(lo - p.longitude) ^ 2 + (la - p.latitude) ^ 2,
    by simp [dist2, hla, hlo], by positivity, ?_⟩
  congr 1
  push_cast
  ring

/-- C7: the computation is deterministic — it is embedded by pure functions
(the source has no randomness), so equal record collections and equal
reference points give the identical returned record and the identical
returned row position. -/
theorem findNearest_deterministic (f : List (Option ℚ) → List ℕ)
    (p1 p2 : RefPoint) (rs1 rs2 : List BuildingRecord)
    (hp : p1 = p2) (hrs : rs1 = rs2) :
    findNearest f p1 rs1 = findNearest f p2 rs2 ∧
    findNearestIdx f p1 rs1 = findNearestIdx f p2 rs2 := by
  subst hp; subst hrs; exact ⟨rfl, rfl⟩

/-- C9: the geometry column never enters the selection — line 106 replaces
it by points built from the longitude/latitude columns before any distance
is computed — so two collections agreeing on every column except `geometry`
make the computation return the same row position. -/
theorem findNearestIdx_geometry_independent (f : List (Option ℚ) → List ℕ)
    (p : RefPoint) (rs1 rs2 : List BuildingRecord)
    (hlen : rs1.length = rs2.length)
    (hagree : ∀ i (h1 : i < rs1.length) (h2 : i < rs2.length),
      rs1[i].latitude = rs2[i].latitude ∧
      rs1[i].longitude = rs2[i].longitude ∧
      rs1[i].area_in_meters = rs2[i].area_in_meters ∧
      rs1[i].confidence = rs2[i].confidence ∧
      rs1[i].full_plus_code = rs2[i].full_plus_code) :
    findNearestIdx f p rs1 = findNearestIdx f p rs2 := by
  have hds : distCol p rs1 = distCol p rs2 := by
    apply List.ext_getElem (by simp [distCol, hlen])
    intro i h1 h2
    simp only [distCol, List.length_map] at h1 h2
    obtain ⟨hla, hlo, _, _, _⟩ := hagree i h1 h2
    simp only [distCol, List.getElem_map, dist2, hla, hlo]
  simp only [findNearestIdx, sortedSeries, hds]

/-- C10: a collection holding at least one finite-coordinate record and any
number of NaN-coordinate records raises no error: the NaN distances are
skipped by `idxmin`, and the returned record is one of the collection with
finite coordinates (a NaN-coordinate record can never be the result). -/
theorem findNearest_skips_nan (f : List (Option ℚ) → List ℕ)
    (hf : IsArgsort f) (p : RefPoint) (rs : List BuildingRecord)
    (_hnan : ∃ r ∈ rs, r.latitude = none ∨ r.longitude = none)
    (hex : ∃ r ∈ rs, r.latitude ≠ none ∧ r.longitude ≠ none) :
    ∃ out, findNearest f p rs = Except.ok out ∧ out ∈ rs ∧
      out.latitude ≠ none ∧ out.longitude ≠ none := by
  obtain ⟨r0, hr0, hla, hlo⟩ := hex
  obtain ⟨d0, hd0⟩ := dist2_isSome hla hlo
  obtain ⟨j, hj, hrj⟩ := List.mem_iff_getElem.mp hr0
  rw [← hrj] at hd0
  have hmem := mem_sortedSeries hf p rs hj
  rw [hd0] at hmem
  obtain ⟨i, v, hidx⟩ := idxminAux_isSome hmem
  obtain ⟨hi, hok, hdist, _⟩ := findNearest_spec hf hidx
  exact ⟨rs[i], hok, List.getElem_mem hi,
    (dist2_some_finite hdist).1, (dist2_some_finite hdist).2⟩

/-- C8 as the code has it: no `InvalidCoordinateError` exists anywhere in
the pipeline; non-finite records are silently skipped, and the only failure
the computation can produce is the empty/all-NaN `idxmin` error, which
happens exactly when no record of the collection has finite coordinates. -/
theorem findNearest_no_coordinate_error (f : List (Option ℚ) → List ℕ)
    (hf : IsArgsort f) (p : RefPoint) (rs : List BuildingRecord)
    (e : FindError) (h : findNearest f p rs = Except.error e) :
    e = FindError.emptyDataset ∧
      ∀ r ∈ rs, r.latitude = none ∨ r.longitude = none := by
  cases hidx : idxminAux (sortedSeries f p rs) with
  | some q =>
    obtain ⟨i, v⟩ := q
    obtain ⟨hi, hok, _, _⟩ := findNearest_spec hf hidx
    rw [hok] at h
    simp at h
  | none =>
    have he : e = FindError.emptyDataset := by
      simp only [findNearest, findNearestIdx, hidx] at h
      exact (Except.error.inj h).symm
    refine ⟨he, ?_⟩
    intro r hr
    by_contra hcon
    push_neg at hcon
    obtain ⟨d0, hd0⟩ := dist2_isSome hcon.1 hcon.2
    obtain ⟨j, hj, hrj⟩ := List.mem_iff_getElem.mp hr
    rw [← hrj] at hd0
    have hmem := mem_sortedSeries hf p rs hj
    rw [hd0] at hmem
    exact idxminAux_eq_none hidx j d0 hmem

/-- C5 as the code has it: the computation neither adds nor removes records
and leaves the five CSV data columns of every record unchanged — the frame
bound to `buildings` after line 111 is a permutation of the rows produced by
lines 106 and 109 from the input records, and its data columns are a
permutation of the input data columns — but it is not side-effect free:
each row's geometry is replaced by the point `(longitude, latitude)`, a
derived distance column is appended, and the rows are reordered by the sort
of line 111, so "no field modified, never reordered" fails; see the
counterexample. -/
theorem recordsAfter_perm (f : List (Option ℚ) → List ℕ)
    (hf : IsArgsort f) (p : RefPoint) (rs : List BuildingRecord) :
    (recordsAfter f p rs).Perm (rs.map (toFrameRow p)) ∧
    ((recordsAfter f p rs).map FrameRow.data).Perm (rs.map BuildingRecord.data) ∧
    ∀ row ∈ recordsAfter f p rs,
      row.geometry_x = row.longitude ∧ row.geometry_y = row.latitude := by
  have hperm := (hf (distCol p rs)).1
  rw [length_distCol] at hperm
  have hmap : (List.range rs.length).map (fun i => toFrameRow p (rs.getD i default)) =
      rs.map (toFrameRow p) := by
    apply List.ext_getElem (by simp)
    intro i h1 h2
    have hi : i < rs.length := by simpa using h2
    simp [List.getD_eq_getElem?_getD, List.getElem?_eq_getElem hi]
  have h1 : (recordsAfter f p rs).Perm (rs.map (toFrameRow p)) := by
    have h2 : ((f (distCol p rs)).map (fun i => toFrameRow p (rs.getD i default))).Perm
        ((List.range rs.length).map (fun i => toFrameRow p (rs.getD i default))) :=
      hperm.map _
    rw [hmap] at h2
    exact h2
  refine ⟨h1, ?_, ?_⟩
  · have h3 := h1.map FrameRow.data
    rw [List.map_map] at h3
    have h4 : FrameRow.data ∘ toFrameRow p = BuildingRecord.data :=
      funext fun r => rfl
    rw [h4] at h3
    exact h3
  · intro row hrow
    have hm := h1.mem_iff.mp hrow
    obtain ⟨r, _, rfl⟩ := List.mem_map.mp hm
    exact ⟨rfl, rfl⟩

/-- Helper: a permutation of a two-element list of distinct naturals is one
of its two arrangements. -/
lemma perm_pair {l : List ℕ} {a b : ℕ} (hab : a ≠ b) (h : l.Perm [a, b]) :
    l = [a, b] ∨ l = [b, a] := by
  have hlen : l.length = 2 := by simpa using h.length_eq
  obtain ⟨x, y, rfl⟩ : ∃ x y, l = [x, y] := by
    match l, hlen with
    | [x, y], _ => exact ⟨x, y, rfl⟩
  have hx : x = a ∨ x = b := by
    have hm : x ∈ [a, b] := h.mem_iff.mp (by simp)
    simpa using hm
  have hy : y = a ∨ y = b := by
    have hm : y ∈ [a, b] := h.mem_iff.mp (by simp)
    simpa using hm
  rcases hx with hx | hx
  · rcases hy with hy | hy
    · have hm : b ∈ [x, y] := h.mem_iff.mpr (by simp)
      rw [hx, hy] at hm
      have hba : b = a := by simpa using hm
      exact absurd hba.symm hab
    · exact Or.inl (by rw [hx, hy])
  · rcases hy with hy | hy
    · exact Or.inr (by rw [hx, hy])
    · have hm : a ∈ [x, y] := h.mem_iff.mpr (by simp)
      rw [hx, hy] at hm
      have hab2 : a = b := by simpa using hm
      exact absurd hab2 hab

/-- Helper: in the spec's concrete scenario the two distances are distinct
(record A is strictly closer), so every admissible sort of line 111 puts row
0 before row 1. -/
lemma argsort_concrete {f : List (Option ℚ) → List ℕ} (hf : IsArgsort f) :
    f (distCol cristoRedentorCoords [recA, recB]) = [0, 1] := by
  have hlen : (distCol cristoRedentorCoords [recA, recB]).length = 2 := by
    simp [distCol]
  have hperm := (hf (distCol cristoRedentorCoords [recA, recB])).1
  rw [hlen] at hperm
  rw [show List.range 2 = [0, 1] from rfl] at hperm
  rcases perm_pair (by omega) hperm with h | h
  · exact h
  · exfalso
    have hpw := (hf (distCol cristoRedentorCoords [recA, recB])).2
    rw [h] at hpw
    have h10 : argsortRel (distCol cristoRedentorCoords [recA, recB]) 1 0 := by
      simpa [List.pairwise_cons] using hpw
    revert h10
    simp only [argsortRel]
    norm_num [distCol, dist2, recA, recB, cristoRedentorCoords, dleB]

/-- C6 as the code has it: on the spec's concrete scenario the computation
returns record "A"; record A's distance is ≈ 0.00658 (inside (0.0065,
0.0066), matching the spec's "≈0.0065"), but record B's distance is
≈ 0.06553 (inside (0.0655, 0.0656)), not the spec's "≈0.0791". -/
theorem findNearest_concrete_scenario (f : List (Option ℚ) → List ℕ)
    (hf : IsArgsort f) :
    findNearest f cristoRedentorCoords [recA, recB] = Except.ok recA ∧
    (∃ dA : ℚ, dist2 cristoRedentorCoords recA = some dA ∧
      0.0065 < Real.sqrt (dA : ℝ) ∧ Real.sqrt (dA : ℝ) < 0.0066) ∧
    (∃ dB : ℚ, dist2 cristoRedentorCoords recB = some dB ∧
      0.0655 < Real.sqrt (dB : ℝ) ∧ Real.sqrt (dB : ℝ) < 0.0656) := by
  refine ⟨?_, ?_, ?_⟩
  · have h01 := argsort_concrete hf
    simp only [findNearest, findNearestIdx, sortedSeries, h01]
    norm_num [distCol, dist2, recA, recB, cristoRedentorCoords, idxminAux]
  · refine ⟨((-43.20 : ℚ) - (-43.206499174)) ^ 2 + ((-22.95 : ℚ) - (-22.950996196)) ^ 2,
      by simp [dist2, recA, cristoRedentorCoords], ?_, ?_⟩
    · rw [Real.lt_sqrt (by norm_num)]
      push_cast
      norm_num
    · rw [Real.sqrt_lt' (by norm_num)]
      push_cast
      norm_num
  · refine ⟨((-43.25 : ℚ) - (-43.206499174)) ^ 2 + ((-23.00 : ℚ) - (-22.950996196)) ^ 2,
      by simp [dist2, recB, cristoRedentorCoords], ?_, ?_⟩
    · rw [Real.lt_sqrt (by norm_num)]
      push_cast
      norm_num
    · rw [Real.sqrt_lt' (by norm_num)]
      push_cast
      norm_num

/-- C6 counterexample: the claim asserts record B's distance to the
reference is approximately 0.0791, but its actual distance is below 0.066
(it is ≈ 0.06553), more than 0.013 away from 0.0791 — far outside any
rounding tolerance of a three-significant-digit "≈0.0791". -/
theorem concrete_scenario_distB_cex :
    ∃ d : ℚ, dist2 cristoRedentorCoords recB = some d ∧
      Real.sqrt (d : ℝ) < 0.066 ∧
      ¬ (|Real.sqrt (d : ℝ) - 0.0791| ≤ 0.005) := by
  refine ⟨((-43.25 : ℚ) - (-43.206499174)) ^ 2 + ((-23.00 : ℚ) - (-22.950996196)) ^ 2,
    by simp [dist2, recB, cristoRedentorCoords], ?_, ?_⟩
  · rw [Real.sqrt_lt' (by norm_num)]
    push_cast
    norm_num
  · intro hc
    have hle := (abs_le.mp hc).1
    have hlt : Real.sqrt ((((-43.25 : ℚ) - (-43.206499174)) ^ 2 +
        ((-23.00 : ℚ) - (-22.950996196)) ^ 2 : ℚ) : ℝ) < 0.066 := by
      rw [Real.sqrt_lt' (by norm_num)]
      push_cast
      norm_num
    linarith

/-- C5 counterexample: the collection bound to `buildings` after the
computation is NOT left unchanged: already at the level of the five
untouched data columns (setting aside the geometry overwrite of line 106
and the appended distance column), the sort of line 111 reorders the
records — with record B first and record A second on input, the output
order is A then B. -/
theorem recordsAfter_reordered_cex :
    (recordsAfter insArgsort cristoRedentorCoords [recB, recA]).map FrameRow.data ≠
      [recB, recA].map BuildingRecord.data := by
  have h : (recordsAfter insArgsort cristoRedentorCoords [recB, recA]).map
      FrameRow.data = [recA.data, recB.data] := by
    norm_num [recordsAfter, insArgsort, distCol, dist2, recA, recB, cristoRedentorCoords,
      List.insertionSort, List.orderedInsert, argsortRel, dleB, List.range_succ,
      toFrameRow, FrameRow.data, BuildingRecord.data]
  rw [h]
  simp [recA, recB, BuildingRecord.data]

/-- C8 counterexample: on a collection holding a record with a missing
latitude, the code does not fail with any coordinate error — it silently
skips the record and returns the finite-coordinate one. -/
theorem invalid_coordinate_no_error_cex :
    findNearest insArgsort cristoRedentorCoords [recN, recA] = Except.ok recA := by
  norm_num [findNearest, findNearestIdx, sortedSeries, distCol, insArgsort, dist2,
    cristoRedentorCoords, recA, recN, List.insertionSort,
    List.orderedInsert, argsortRel, dleB, idxminAux, List.range_succ]

/-- Witness for `findNearest_mem_and_minimal` on the concrete two-record
collection. -/
theorem findNearest_mem_and_minimal_witness :
    ([recA, recB] ≠ ([] : List BuildingRecord)) ∧
    (∀ r ∈ [recA, recB], r.latitude ≠ none ∧ r.longitude ≠ none) ∧
    ∃ r, findNearest insArgsort cristoRedentorCoords [recA, recB] = Except.ok r ∧
      r ∈ [recA, recB] ∧
      ∀ r' ∈ [recA, recB], ∀ d d' : ℚ,
        dist2 cristoRedentorCoords r = some d →
        dist2 cristoRedentorCoords r' = some d' →
        Real.sqrt (d : ℝ) ≤ Real.sqrt (d' : ℝ) :=
  ⟨by simp, by decide,
    findNearest_mem_and_minimal insArgsort insArgsort_isArgsort cristoRedentorCoords
      [recA, recB] (by simp) (by decide)⟩

/-- Witness for `findNearest_empty_dataset` at the concrete sort and
reference point. -/
theorem findNearest_empty_dataset_witness :
    findNearest insArgsort cristoRedentorCoords [] =
      Except.error FindError.emptyDataset :=
  findNearest_empty_dataset insArgsort insArgsort_isArgsort cristoRedentorCoords

/-- Witness for `dist2_sqrt_euclidean` at record A and the Cristo Redentor
reference point. -/
theorem dist2_sqrt_euclidean_witness :
    ∃ d : ℚ, dist2 cristoRedentorCoords recA = some d ∧ 0 ≤ d ∧
      Real.sqrt (d : ℝ) =
        Real.sqrt ((((-43.20 : ℚ) : ℝ) - (cristoRedentorCoords.longitude : ℝ)) ^ 2 +
          (((-22.95 : ℚ) : ℝ) - (cristoRedentorCoords.latitude : ℝ)) ^ 2) :=
  dist2_sqrt_euclidean cristoRedentorCoords recA (-22.95) (-43.20) rfl rfl

/-- Witness for `findNearest_deterministic` at a concrete input. -/
theorem findNearest_deterministic_witness :
    findNearest insArgsort cristoRedentorCoords [recA, recB] =
      findNearest insArgsort cristoRedentorCoords [recA, recB] ∧
    findNearestIdx insArgsort cristoRedentorCoords [recA, recB] =
      findNearestIdx insArgsort cristoRedentorCoords [recA, recB] :=
  findNearest_deterministic insArgsort cristoRedentorCoords cristoRedentorCoords
    [recA, recB] [recA, recB] rfl rfl

/-- Witness for `findNearestIdx_geometry_independent`: the same record with
two different geometry strings selects the same position. -/
theorem findNearestIdx_geometry_independent_witness :
    findNearestIdx insArgsort cristoRedentorCoords [recA] =
      findNearestIdx insArgsort cristoRedentorCoords [recAgeo] :=
  findNearestIdx_geometry_independent insArgsort cristoRedentorCoords [recA] [recAgeo]
    rfl (by
      intro i h1 h2
      match i, h1 with
      | 0, _ => exact ⟨rfl, rfl, rfl, rfl, rfl⟩)

/-- Witness for `findNearest_skips_nan` on a collection with one NaN record
and one finite record. -/
theorem findNearest_skips_nan_witness :
    (∃ r ∈ [recN, recA], r.latitude ≠ none ∧ r.longitude ≠ none) ∧
    (∃ r ∈ [recN, recA], r.latitude = none ∨ r.longitude = none) ∧
    ∃ out, findNearest insArgsort cristoRedentorCoords [recN, recA] = Except.ok out ∧
      out ∈ [recN, recA] ∧ out.latitude ≠ none ∧ out.longitude ≠ none :=
  ⟨by decide, by decide,
    findNearest_skips_nan insArgsort insArgsort_isArgsort cristoRedentorCoords
      [recN, recA] (by decide) (by decide)⟩

/-- Witness for `findNearest_no_coordinate_error`: a collection whose single
record has a missing latitude makes the pipeline fail with the
empty/all-NaN arg-min error, not a coordinate error. -/
theorem findNearest_no_coordinate_error_witness :
    FindError.emptyDataset = FindError.emptyDataset ∧
      ∀ r ∈ [recN], r.latitude = none ∨ r.longitude = none :=
  findNearest_no_coordinate_error insArgsort insArgsort_isArgsort cristoRedentorCoords
    [recN] FindError.emptyDataset (by
      simp [findNearest, findNearestIdx, sortedSeries, distCol, dist2, recN,
        insArgsort, List.insertionSort, List.orderedInsert, idxminAux,
        List.range_succ])

/-- Witness for `recordsAfter_perm` at a concrete two-record collection. -/
theorem recordsAfter_perm_witness :
    (recordsAfter insArgsort cristoRedentorCoords [recB, recA]).Perm
      ([recB, recA].map (toFrameRow cristoRedentorCoords)) ∧
    ((recordsAfter insArgsort cristoRedentorCoords [recB, recA]).map
      FrameRow.data).Perm ([recB, recA].map BuildingRecord.data) ∧
    ∀ row ∈ recordsAfter insArgsort cristoRedentorCoords [recB, recA],
      row.geometry_x = row.longitude ∧ row.geometry_y = row.latitude :=
  recordsAfter_perm insArgsort insArgsort_isArgsort cristoRedentorCoords [recB, recA]

/-- Witness for `findNearest_concrete_scenario` at the concrete sort. -/
theorem findNearest_concrete_scenario_witness :
    findNearest insArgsort cristoRedentorCoords [recA, recB] = Except.ok recA ∧
    (∃ dA : ℚ, dist2 cristoRedentorCoords recA = some dA ∧
      0.0065 < Real.sqrt (dA : ℝ) ∧ Real.sqrt (dA : ℝ) < 0.0066) ∧
    (∃ dB : ℚ, dist2 cristoRedentorCoords recB = some dB ∧
      0.0655 < Real.sqrt (dB : ℝ) ∧ Real.sqrt (dB : ℝ) < 0.0656) :=
  findNearest_concrete_scenario insArgsort insArgsort_isArgsort
